import Mathlib

/-!
Shallow embedding of the mock-api concurrency core
(src/mock_api/services/application_service.py, src/mock_api/api/applications.py,
src/mock_api/config/settings.py).

Strings are modelled as Lean `String`s over their ASCII fragment (every string
the service manipulates — names, ids, timestamps, etags, If-Match tokens — is
ASCII in the embedding, so Python `str` and UTF-8 byte-level behaviour agree
with the character-level model below).

Time is modelled in integer microseconds (the resolution of Python
`datetime`); `timedelta(minutes=1)` is 60000000 microseconds.
-/

namespace MockApi

/-- Single-quote character, used when rendering Python `str(dict)`. -/
def sq : Char := Char.ofNat 39

/-- Double-quote character (appears in etags and weak If-Match tokens). -/
def dq : Char := Char.ofNat 34

/-- Double quote as a one-character string. -/
def dqs : String := String.mk [dq]

/-- ASCII whitespace set recognised by Python `str.strip()`. -/
def pyWhitespace : List Char :=
  [Char.ofNat 32, Char.ofNat 9, Char.ofNat 10, Char.ofNat 13, Char.ofNat 11, Char.ofNat 12]

/-- Python `s.strip(chars)`: drop characters of `cs` from both ends. -/
def pyStripChars (cs : List Char) (s : List Char) : List Char :=
  ((s.dropWhile (cs.contains ·)).reverse.dropWhile (cs.contains ·)).reverse

/-- Python `s.strip()` (no argument): strip whitespace from both ends. -/
def pyStrip (s : List Char) : List Char :=
  pyStripChars pyWhitespace s

/-- Python `str.lower()` on the ASCII fragment. -/
def pyLowerChar (c : Char) : Char :=
  if 65 ≤ c.toNat ∧ c.toNat ≤ 90 then Char.ofNat (c.toNat + 32) else c

/-- `ApplicationService.normalize_name`: `name.strip().lower()`. -/
def normalize_name (name : String) : String :=
  String.mk ((pyStrip name.toList).map pyLowerChar)

/-- Python `needle in haystack` on strings (substring containment). -/
def substrIn (needle haystack : String) : Bool :=
  haystack.toList.tails.any (needle.toList.isPrefixOf ·)

/-- Python `s.startswith(p)` (structural, so it reduces in the kernel). -/
def pyStartswith (p s : String) : Bool :=
  p.toList.isPrefixOf s.toList

/-- Value of an ASCII decimal digit. -/
def digitVal (c : Char) : Option Nat :=
  if 48 ≤ c.toNat ∧ c.toNat ≤ 57 then some (c.toNat - 48) else none

/-- Underscore character. -/
def usc : Char := Char.ofNat 95

/-- Digits of a Python integer literal after the first digit: further digits,
with single underscores allowed between digits. -/
def parseDigitsAux : List Char → Nat → Option Nat
  | [], acc => some acc
  | c :: rest, acc =>
    match digitVal c with
    | some d => parseDigitsAux rest (10 * acc + d)
    | none =>
      if c = usc then
        match rest with
        | [] => none
        | c2 :: rest2 =>
          match digitVal c2 with
          | some d2 => parseDigitsAux rest2 (10 * acc + d2)
          | none => none
      else none

/-- Nonempty digit sequence (with `_` group separators), as Python `int` accepts. -/
def parseDigits : List Char → Option Nat
  | [] => none
  | c :: rest =>
    match digitVal c with
    | some d => parseDigitsAux rest d
    | none => none

/-- Python `int(s)` on the ASCII fragment: strip whitespace, optional sign,
then a digit sequence; `none` models the `ValueError` raised otherwise. -/
def pyInt (s : String) : Option Int :=
  match pyStrip s.toList with
  | [] => none
  | c :: rest =>
    if c = Char.ofNat 43 then (parseDigits rest).map Int.ofNat
    else if c = Char.ofNat 45 then (parseDigits rest).map (fun n => -(n : Int))
    else (parseDigits (c :: rest)).map Int.ofNat

/-! ### MD5 (RFC 1321), used by `ApplicationService.generate_etag` -/

/-- Reduce modulo 2^32. -/
def u32 (n : Nat) : Nat := n % 4294967296

/-- Left-rotate a 32-bit word (argument assumed < 2^32). -/
def rotl (x s : Nat) : Nat := u32 (x <<< s) + (x >>> (32 - s))

/-- Bitwise complement on 32-bit words (argument assumed < 2^32). -/
def mNot (x : Nat) : Nat := 4294967295 - x

def mdF (b c d : Nat) : Nat := (b &&& c) ||| (mNot b &&& d)
def mdG (b c d : Nat) : Nat := (d &&& b) ||| (mNot d &&& c)
def mdH (b c d : Nat) : Nat := b ^^^ c ^^^ d
def mdI (b c d : Nat) : Nat := c ^^^ (b ||| mNot d)

/-- MD5 sine-derived constant table. -/
def mdK : List Nat :=
  [0xd76aa478, 0xe8c7b756, 0x242070db, 0xc1bdceee,
   0xf57c0faf, 0x4787c62a, 0xa8304613, 0xfd469501,
   0x698098d8, 0x8b44f7af, 0xffff5bb1, 0x895cd7be,
   0x6b901122, 0xfd987193, 0xa679438e, 0x49b40821,
   0xf61e2562, 0xc040b340, 0x265e5a51, 0xe9b6c7aa,
   0xd62f105d, 0x02441453, 0xd8a1e681, 0xe7d3fbc8,
   0x21e1cde6, 0xc33707d6, 0xf4d50d87, 0x455a14ed,
   0xa9e3e905, 0xfcefa3f8, 0x676f02d9, 0x8d2a4c8a,
   0xfffa3942, 0x8771f681, 0x6d9d6122, 0xfde5380c,
   0xa4beea44, 0x4bdecfa9, 0xf6bb4b60, 0xbebfbc70,
   0x289b7ec6, 0xeaa127fa, 0xd4ef3085, 0x04881d05,
   0xd9d4d039, 0xe6db99e5, 0x1fa27cf8, 0xc4ac5665,
   0xf4292244, 0x432aff97, 0xab9423a7, 0xfc93a039,
   0x655b59c3, 0x8f0ccc92, 0xffeff47d, 0x85845dd1,
   0x6fa87e4f, 0xfe2ce6e0, 0xa3014314, 0x4e0811a1,
   0xf7537e82, 0xbd3af235, 0x2ad7d2bb, 0xeb86d391]

/-- MD5 per-round shift amounts. -/
def mdS : List Nat :=
  [7, 12, 17, 22, 7, 12, 17, 22, 7, 12, 17, 22, 7, 12, 17, 22,
   5, 9, 14, 20, 5, 9, 14, 20, 5, 9, 14, 20, 5, 9, 14, 20,
   4, 11, 16, 23, 4, 11, 16, 23, 4, 11, 16, 23, 4, 11, 16, 23,
   6, 10, 15, 21, 6, 10, 15, 21, 6, 10, 15, 21, 6, 10, 15, 21]

/-- One MD5 round on state `(a, b, c, d)` with message words `m`. -/
def md5round (m : List Nat) (st : Nat × Nat × Nat × Nat) (i : Nat) : Nat × Nat × Nat × Nat :=
  let a := st.1
  let b := st.2.1
  let c := st.2.2.1
  let d := st.2.2.2
  let fg : Nat × Nat :=
    if i < 16 then (mdF b c d, i)
    else if i < 32 then (mdG b c d, (5 * i + 1) % 16)
    else if i < 48 then (mdH b c d, (3 * i + 5) % 16)
    else (mdI b c d, (7 * i) % 16)
  let tmp := u32 (a + fg.1 + mdK.getD i 0 + m.getD fg.2 0)
  (d, u32 (b + rotl tmp (mdS.getD i 0)), b, c)

/-- Little-endian 32-bit word `j` of a 64-byte block. -/
def leWord (blk : List Nat) (j : Nat) : Nat :=
  blk.getD (4 * j) 0 + 256 * blk.getD (4 * j + 1) 0 +
    65536 * blk.getD (4 * j + 2) 0 + 16777216 * blk.getD (4 * j + 3) 0

/-- The sixteen message words of a 64-byte block. -/
def blockWords (blk : List Nat) : List Nat :=
  (List.range 16).map (leWord blk)

/-- Process one 64-byte block. -/
def md5block (st : Nat × Nat × Nat × Nat) (blk : List Nat) : Nat × Nat × Nat × Nat :=
  let m := blockWords blk
  let e := (List.range 64).foldl (md5round m) st
  (u32 (st.1 + e.1), u32 (st.2.1 + e.2.1), u32 (st.2.2.1 + e.2.2.1), u32 (st.2.2.2 + e.2.2.2))

/-- Split a byte list into 64-byte blocks (structural recursion on a fuel
bound so that the definition reduces inside the kernel). -/
def toBlocksAux : Nat → List Nat → List (List Nat)
  | _, [] => []
  | 0, _ => []
  | fuel + 1, a :: rest => (a :: rest).take 64 :: toBlocksAux fuel ((a :: rest).drop 64)

/-- Split a byte list into 64-byte blocks. -/
def toBlocks (l : List Nat) : List (List Nat) :=
  toBlocksAux l.length l

/-- `k` little-endian bytes of `n`. -/
def leBytes : Nat → Nat → List Nat
  | 0, _ => []
  | k + 1, n => n % 256 :: leBytes k (n / 256)

/-- MD5 padding: a 0x80 byte, zeros to 56 mod 64, then the 64-bit bit length. -/
def md5pad (msg : List Nat) : List Nat :=
  msg ++ 128 :: List.replicate ((119 - msg.length % 64) % 64) 0 ++ leBytes 8 (8 * msg.length)

/-- MD5 digest (16 bytes) of a byte list. -/
def md5bytes (msg : List Nat) : List Nat :=
  let f := (toBlocks (md5pad msg)).foldl md5block (0x67452301, 0xefcdab89, 0x98badcfe, 0x10325476)
  leBytes 4 f.1 ++ leBytes 4 f.2.1 ++ leBytes 4 f.2.2.1 ++ leBytes 4 f.2.2.2

/-- Lower-case hex digit. -/
def hexChar (n : Nat) : Char :=
  if n < 10 then Char.ofNat (48 + n) else Char.ofNat (87 + n)

/-- Two hex digits of a byte. -/
def byteHex (b : Nat) : List Char :=
  [hexChar (b / 16), hexChar (b % 16)]

/-- `hashlib.md5(s.encode()).hexdigest()` on ASCII strings. -/
def md5hex (s : String) : String :=
  String.mk (((md5bytes (s.toList.map Char.toNat)).map byteHex).flatten)

/-! ### Data model -/

/-- The stored application record, mirroring the `app_data` dict built in
`create_application` (key order: id, name, description, is_active, version,
created_at, etag).  `etag := none` models the dict before the `"etag"` key is
assigned; every record placed in the store carries `some` etag. -/
structure AppRecord where
  id : String
  name : String
  description : Option String
  is_active : Bool
  version : Nat
  created_at : String
  etag : Option String
deriving DecidableEq

/-- Python `repr` of an ASCII string with no quotes or backslashes in it
(single-quoted form), as used by `str(dict)`. -/
def pyReprStr (s : String) : String :=
  String.mk (sq :: s.toList ++ [sq])

/-- Python `repr` of an optional string (`None` when absent). -/
def pyReprOptStr : Option String → String
  | none => "None"
  | some s => pyReprStr s

/-- Python `repr` of a bool. -/
def pyReprBool : Bool → String
  | true => "True"
  | false => "False"

/-- A single-quoted dict key followed by `: `. -/
def kq (k : String) : String :=
  String.mk (sq :: k.toList ++ [sq]) ++ ": "

/-- Python `str(app_data)`: the dict rendered in insertion order; the `etag`
entry appears only once the key has been assigned. -/
def dictStr (a : AppRecord) : String :=
  "\x7b" ++ kq "id" ++ pyReprStr a.id ++
    ", " ++ kq "name" ++ pyReprStr a.name ++
    ", " ++ kq "description" ++ pyReprOptStr a.description ++
    ", " ++ kq "is_active" ++ pyReprBool a.is_active ++
    ", " ++ kq "version" ++ toString a.version ++
    ", " ++ kq "created_at" ++ pyReprStr a.created_at ++
    (match a.etag with
     | none => ""
     | some e => ", " ++ kq "etag" ++ pyReprStr e) ++ "\x7d"

/-- `ApplicationService.generate_etag`: md5 of `f"{version}:{str(data)}"`,
wrapped in double quotes. -/
def generate_etag (version : Nat) (data : AppRecord) : String :=
  dqs ++ md5hex (toString version ++ ":" ++ dictStr data) ++ dqs

/-! ### Dict primitives (Python dicts as insertion-ordered assoc lists;
dict keys are unique, so assignment replaces in place or appends) -/

/-- `m[k]` lookup (`dict.get`). -/
def dictGet {α : Type} : List (String × α) → String → Option α
  | [], _ => none
  | p :: rest, k => if p.1 == k then some p.2 else dictGet rest k

/-- `m[k] = v` assignment. -/
def dictSet {α : Type} : List (String × α) → String → α → List (String × α)
  | [], k, v => [(k, v)]
  | p :: rest, k, v => if p.1 == k then (k, v) :: rest else p :: dictSet rest k v

/-! ### ApplicationService -/

/-- The `ApplicationService._applications` map. -/
abbrev Apps : Type := List (String × AppRecord)

/-- `ApplicationService.is_name_unique`. -/
def is_name_unique (apps : Apps) (name : String) (exclude_id : Option String) : Bool :=
  !(List.any apps (fun p =>
      (!(some p.1 == exclude_id)) && (normalize_name p.2.name == normalize_name name)))

/-- `ApplicationService.get_application`. -/
def get_application (apps : Apps) (app_id : String) : Option AppRecord :=
  dictGet apps app_id

/-- `ApplicationService.create_application` (the service-level store write). -/
def svc_create_application (apps : Apps) (app_id : String) (app_data : AppRecord) : Apps :=
  dictSet apps app_id app_data

/-- `ApplicationService.update_application` (the service-level store write). -/
def svc_update_application (apps : Apps) (app_id : String) (app_data : AppRecord) : Apps :=
  dictSet apps app_id app_data

/-! ### RateLimiter -/

/-- `MAX_REQUESTS_PER_MINUTE` from settings. -/
def MAX_REQUESTS_PER_MINUTE : Nat := 5

/-- One minute in microseconds (`timedelta(minutes=1)`). -/
def MINUTE_US : Int := 60000000

/-- The `RateLimiter._records` map: per-token request instants (µs). -/
abbrev RateRecords : Type := List (String × List Int)

/-- `RateLimiter.check_rate_limit`: prune instants older than one minute
(writing the pruned list back), reject with
`max(0, int((oldest - minute_ago).total_seconds()))` when the window is full,
otherwise record `now` and admit.  Returns (allowed, retry_after, records). -/
def check_rate_limit (records : RateRecords) (token : String) (now : Int) :
    Bool × Option Int × RateRecords :=
  let minuteAgo := now - MINUTE_US
  let kept := ((dictGet records token).getD []).filter (fun t => decide (minuteAgo < t))
  if MAX_REQUESTS_PER_MINUTE ≤ kept.length then
    (false, some (max 0 (Int.tdiv (kept.headD 0 - minuteAgo) 1000000)), dictSet records token kept)
  else
    (true, none, dictSet records token (kept ++ [now]))

/-! ### IdempotencyService -/

/-- The `IdempotencyService._records` map: token → key → stored response.
The stored response is the 201 body (the full created record); the status is
always 201, so only the body is modelled. -/
abbrev IdemRecords : Type := List (String × List (String × AppRecord))

/-- `IdempotencyService.get_record`. -/
def get_record (records : IdemRecords) (token key : String) : Option AppRecord :=
  dictGet ((dictGet records token).getD []) key

/-- `IdempotencyService.store_record`. -/
def store_record (records : IdemRecords) (token key : String) (response : AppRecord) :
    IdemRecords :=
  dictSet records token (dictSet ((dictGet records token).getD []) key response)

/-! ### API layer (src/mock_api/api/applications.py) -/

/-- The module-level service instances, bundled as one server state. -/
structure ServerState where
  applications : Apps
  rate_records : RateRecords
  idem_records : IdemRecords
deriving DecidableEq

/-- The state at process start: all three maps empty. -/
def emptyState : ServerState :=
  { applications := [], rate_records := [], idem_records := [] }

/-- Outcome of `POST /applications`.  `created`/`cached` carry the 201 body. -/
inductive CreateResult where
  | rateLimited (retry_after : Int)
  | cached (body : AppRecord)
  | conflict
  | created (body : AppRecord)
deriving DecidableEq

/-- The `create_application` route handler.  `now`, `app_id` (the fresh uuid)
and `created_at` (the `datetime.now().isoformat()` string) are environmental
inputs supplied by the runtime. -/
def create_application (st : ServerState) (token idempotency_key name : String)
    (description : Option String) (now : Int) (app_id created_at : String) :
    CreateResult × ServerState :=
  let rl := check_rate_limit st.rate_records token now
  let st1 : ServerState := { st with rate_records := rl.2.2 }
  if !rl.1 then
    (.rateLimited ((rl.2.1).getD 0), st1)
  else
    match get_record st1.idem_records token idempotency_key with
    | some resp => (.cached resp, st1)
    | none =>
      if !is_name_unique st1.applications name none then
        (.conflict, st1)
      else
        let rec0 : AppRecord :=
          { id := app_id, name := name, description := description, is_active := false,
            version := 1, created_at := created_at, etag := none }
        let rec1 : AppRecord := { rec0 with etag := some (generate_etag 1 rec0) }
        (.created rec1,
         { st1 with
             applications := svc_create_application st1.applications app_id rec1,
             idem_records := store_record st1.idem_records token idempotency_key rec1 })

/-- Outcome of `PATCH /applications/{app_id}`.  `valueError` models the
uncaught `ValueError` raised by `int()` on a malformed weak `If-Match`. -/
inductive UpdateResult where
  | notFound
  | preconditionFailed
  | valueError
  | conflict
  | nameForbidsActivation
  | activating
  | ok (body : AppRecord)
deriving DecidableEq

/-- Outcome of the If-Match validation block. -/
inductive IfMatchCheck where
  | pass
  | fail
  | err
deriving DecidableEq

/-- The weak-comparison marker the code tests with `startswith('W/"')`. -/
def weakPrefix : String := "W/" ++ dqs

/-- Characters stripped by `if_match.strip('W/"')`. -/
def weakStripSet : List Char := [Char.ofNat 87, Char.ofNat 47, dq]

/-- `if_match.strip('W/"')`: the text inside a weak-comparison token. -/
def weakVersionText (if_match : String) : String :=
  String.mk (pyStripChars weakStripSet if_match.toList)

/-- The If-Match validation of `update_application`: a token starting with
`W/"` is stripped of the characters `W`, `/`, `"` at both ends and parsed with
`int()` (raising on failure), then compared to the stored version; any other
token is compared to the stored etag string. -/
def checkIfMatch (if_match : String) (app_data : AppRecord) : IfMatchCheck :=
  if pyStartswith weakPrefix if_match then
    match pyInt (weakVersionText if_match) with
    | none => .err
    | some v => if v ≠ (app_data.version : Int) then .fail else .pass
  else
    if if_match ≠ app_data.etag.getD "" then .fail else .pass

/-- The parsed PATCH payload: each updatable field present or absent
(`description` may be present and null). -/
structure PatchData where
  name : Option String := none
  description : Option (Option String) := none
  is_active : Option Bool := none
deriving DecidableEq

/-- `ACTIVATION_MODE` values compare against this literal. -/
def EVENTUAL : String := "eventual"

/-- The field merge of `update_application`: patched fields replace stored
ones, absent fields keep prior values (the name-conflict abort happens before
this is committed). -/
def mergePatch (a : AppRecord) (patch : PatchData) : AppRecord :=
  let u1 := match patch.name with
    | some n => { a with name := n }
    | none => a
  match patch.description with
  | some d => { u1 with description := d }
  | none => u1

/-- The common tail of the update handler: bump the version, recompute the
etag over the dict that still holds the previous etag, store, return 200. -/
def commitUpdate (apps : Apps) (app_id : String) (u : AppRecord) :
    UpdateResult × Apps × Option String :=
  let u1 : AppRecord := { u with version := u.version + 1 }
  let u2 : AppRecord := { u1 with etag := some (generate_etag u1.version u1) }
  (.ok u2, svc_update_application apps app_id u2, none)

/-- The `update_application` route handler.  The third component of the
result is the entity id handed to the deferred activation task when one is
scheduled (`asyncio.create_task(activate_later())`). -/
def update_application (apps : Apps) (app_id if_match : String) (patch : PatchData)
    (force : Bool) (activation_mode : String) : UpdateResult × Apps × Option String :=
  match get_application apps app_id with
  | none => (.notFound, apps, none)
  | some app_data =>
    match checkIfMatch if_match app_data with
    | .err => (.valueError, apps, none)
    | .fail => (.preconditionFailed, apps, none)
    | .pass =>
      if patch.name.isSome && !is_name_unique apps (patch.name.getD "") (some app_id) then
        (.conflict, apps, none)
      else
        let u2 := mergePatch app_data patch
        match patch.is_active with
        | some act =>
          if act && substrIn "test" (normalize_name u2.name) && !force then
            (.nameForbidsActivation, apps, none)
          else if act && (activation_mode == EVENTUAL) then
            let u3 : AppRecord := { u2 with version := u2.version + 1 }
            let u4 : AppRecord := { u3 with etag := some (generate_etag u3.version u3) }
            (.activating, svc_update_application apps app_id u4, some app_id)
          else
            commitUpdate apps app_id { u2 with is_active := act }
        | none => commitUpdate apps app_id u2

/-- The deferred `activate_later` task body: after the delay, re-read the
record and, if it still exists, set `is_active` and write it back unchanged
otherwise (no version bump, no etag recomputation). -/
def activate_later (apps : Apps) (app_id : String) : Apps :=
  match get_application apps app_id with
  | none => apps
  | some app_data => svc_update_application apps app_id { app_data with is_active := true }

/-- `GET /applications/{app_id}`: the stored record, or a 404. -/
def api_get_application (apps : Apps) (app_id : String) : Option AppRecord :=
  get_application apps app_id

/-- `n` create requests with identical token, key and payload arriving
together (the handler body runs atomically on the event loop, so simultaneous
requests execute back to back at the same instant). -/
def runCreates (st : ServerState) (token key name : String) (description : Option String)
    (now : Int) (app_id created_at : String) : Nat → List CreateResult × ServerState
  | 0 => ([], st)
  | n + 1 =>
    let r1 := create_application st token key name description now app_id created_at
    let rest := runCreates r1.2 token key name description now app_id created_at n
    (r1.1 :: rest.1, rest.2)

/-! ### Concrete scenario states used by counterexamples -/

/-- Weak If-Match token `W/"1"`. -/
def wOne : String := "W/" ++ dqs ++ "1" ++ dqs

/-- Weak If-Match token `W/"2"`. -/
def wTwo : String := "W/" ++ dqs ++ "2" ++ dqs

/-- A live record with an opaque etag, used to instantiate hypotheses. -/
def recW : AppRecord :=
  { id := "a", name := "n", description := none, is_active := false,
    version := 1, created_at := "t", etag := some "e" }

/-- A live record whose name contains "test", used for the business rule. -/
def recT : AppRecord :=
  { id := "a", name := "mytest", description := none, is_active := false,
    version := 1, created_at := "t", etag := some "e" }

/-- The body carried by a successful create result (dummy record otherwise). -/
def createdBody : CreateResult → AppRecord
  | .created b => b
  | .cached b => b
  | _ => { id := "", name := "", description := none, is_active := false,
           version := 0, created_at := "", etag := none }

/-- The body carried by a 200 update result (dummy record otherwise). -/
def okBody : UpdateResult → AppRecord
  | .ok b => b
  | _ => { id := "", name := "", description := none, is_active := false,
           version := 0, created_at := "", etag := none }

/-- A successful synchronous update against `recW` (description change). -/
def updOkW : UpdateResult × Apps × Option String :=
  update_application [("a", recW)] "a" "e" { description := some (some "d") } false "immediate"

/-- An accepted eventual-mode activation against `recW`. -/
def updEvW : UpdateResult × Apps × Option String :=
  update_application [("a", recW)] "a" "e" { is_active := some true } false "eventual"

/-- Malformed weak If-Match token `W/"x"` (no integer inside). -/
def wBad : String := "W/" ++ dqs ++ "x" ++ dqs

/-- Failure shape of a create outcome: rate-limit rejection or name
conflict (the two outcomes the spec says must never be cached). -/
def CreateResult.isFailure : CreateResult → Bool
  | .rateLimited _ => true
  | .conflict => true
  | _ => false

/-- A state holding only a cached idempotency record for (`tok`, `k`). -/
def stIdemW : ServerState :=
  { applications := [], rate_records := [], idem_records := [("tok", [("k", recW)])] }

/-- A state whose rate window for `tok` is already full. -/
def stFullW : ServerState :=
  { applications := [], rate_records := [("tok", [0, 0, 0, 0, 0])], idem_records := [] }

/-- State after one successful create (token `tok`, key `k`, name `app`). -/
def cexSt1 : ServerState :=
  (create_application emptyState "tok" "k" "app" none 0 "a" "t").2

/-- Eventual-mode activation request against `cexSt1` (202 activating). -/
def cexUpd1 : UpdateResult × Apps × Option String :=
  update_application cexSt1.applications "a" wOne { is_active := some true } false "eventual"

/-- Store after the synchronous commit of the eventual-mode activation. -/
def cexApps2 : Apps := cexUpd1.2.1

/-- Store after the deferred activation task has fired. -/
def cexApps3 : Apps := activate_later cexApps2 "a"

/-- Store keys are pairwise distinct (Python dict keys are unique). -/
abbrev KeysNodup (apps : Apps) : Prop := (apps.map Prod.fst).Nodup

/-- The normalized names of the live entities are pairwise distinct. -/
abbrev NamesDistinct (apps : Apps) : Prop :=
  (apps.map (fun p => normalize_name p.2.name)).Nodup

/-- A second live record, with a distinct id and name. -/
def recB : AppRecord :=
  { id := "b", name := "m", description := none, is_active := false,
    version := 1, created_at := "t", etag := some "f" }

/-- The tuple that the spec claims determines the fingerprint. -/
def specTuple (a : AppRecord) : Nat × String × Option String × Bool × String × String :=
  (a.version, a.name, a.description, a.is_active, a.created_at, a.id)

/-- History A: create an entity named `x`, then rename it to `y` and set a
description through the update path. -/
def cexC6A : Apps :=
  (update_application
    (create_application emptyState "t1" "k" "x" none 0 "a" "t").2.applications
    "a" wOne { name := some "y", description := some (some "d") } false "immediate").2.1

/-- History B: the same final payload reached from an entity named `z`. -/
def cexC6B : Apps :=
  (update_application
    (create_application emptyState "t1" "k" "z" none 0 "a" "t").2.applications
    "a" wOne { name := some "y", description := some (some "d") } false "immediate").2.1

/-- Five admitted creates for token `tok` under five distinct keys, filling
the rate window; the first create cached its response under key `k1`. -/
def cexC1s5 : ServerState :=
  (create_application
    (create_application
      (create_application
        (create_application
          (create_application emptyState "tok" "k1" "n1" none 0 "a1" "t").2
          "tok" "k2" "n2" none 0 "a2" "t").2
        "tok" "k3" "n3" none 0 "a3" "t").2
      "tok" "k4" "n4" none 0 "a4" "t").2
    "tok" "k5" "n5" none 0 "a5" "t").2

end MockApi

namespace MockApi

/-! ### Theorems -/

/-- Dict lookup after assignment at the same key. -/
theorem dictGet_dictSet_self {α : Type} (m : List (String × α)) (k : String) (v : α) :
    dictGet (dictSet m k v) k = some v := by
  induction m with
  | nil => simp [dictGet, dictSet]
  | cons p rest ih =>
    simp only [dictSet]
    split
    · simp [dictGet]
    · next h => simp [dictGet, h, ih]

/-- Dict lookup after assignment at a different key. -/
theorem dictGet_dictSet_ne {α : Type} (m : List (String × α)) (k k2 : String) (v : α)
    (h : k2 ≠ k) : dictGet (dictSet m k v) k2 = dictGet m k2 := by
  induction m with
  | nil => simp [dictGet, dictSet, Ne.symm h]
  | cons p rest ih =>
    simp only [dictSet]
    split
    · next hp =>
      simp only [beq_iff_eq] at hp
      simp [dictGet, hp, h, Ne.symm h]
    · simp [dictGet, ih]

/-- The field merge never touches the version counter. -/
theorem mergePatch_version (a : AppRecord) (p : PatchData) :
    (mergePatch a p).version = a.version := by
  unfold mergePatch
  rcases p with ⟨pn, pd, pa⟩
  cases pn <;> cases pd <;> simp

/-- The field merge never touches the stored etag. -/
theorem mergePatch_etag (a : AppRecord) (p : PatchData) :
    (mergePatch a p).etag = a.etag := by
  unfold mergePatch
  rcases p with ⟨pn, pd, pa⟩
  cases pn <;> cases pd <;> simp

/-- The merged name is the patched name when present, the stored one else. -/
theorem mergePatch_name (a : AppRecord) (p : PatchData) :
    (mergePatch a p).name = (p.name.getD a.name) := by
  unfold mergePatch
  rcases p with ⟨pn, pd, pa⟩
  cases pn <;> cases pd <;> simp

/-- The field merge never touches the active flag. -/
theorem mergePatch_is_active (a : AppRecord) (p : PatchData) :
    (mergePatch a p).is_active = a.is_active := by
  unfold mergePatch
  rcases p with ⟨pn, pd, pa⟩
  cases pn <;> cases pd <;> simp

/-- C7 (confirmed): every rejected update — not found, precondition mismatch,
malformed-precondition parse error, name conflict, or business-rule violation —
leaves the store entirely unchanged and schedules no deferred task, even when
the rejected patch also carried other valid field changes. -/
theorem rejected_update_unchanged (apps : Apps) (app_id if_match : String)
    (patch : PatchData) (force : Bool) (mode : String) :
    ((update_application apps app_id if_match patch force mode).1 = .notFound ∨
     (update_application apps app_id if_match patch force mode).1 = .preconditionFailed ∨
     (update_application apps app_id if_match patch force mode).1 = .valueError ∨
     (update_application apps app_id if_match patch force mode).1 = .conflict ∨
     (update_application apps app_id if_match patch force mode).1 = .nameForbidsActivation) →
    (update_application apps app_id if_match patch force mode).2.1 = apps ∧
    (update_application apps app_id if_match patch force mode).2.2 = none := by
  intro h
  cases hg : get_application apps app_id with
  | none => simp [update_application, hg]
  | some a =>
    cases hc : checkIfMatch if_match a with
    | err => simp [update_application, hg, hc]
    | fail => simp [update_application, hg, hc]
    | pass =>
      by_cases hn : (patch.name.isSome && !is_name_unique apps (patch.name.getD "") (some app_id)) = true
      · simp [update_application, hg, hc, hn]
      · cases hia : patch.is_active with
        | none =>
          simp [update_application, hg, hc, hn, hia, commitUpdate] at h
        | some act =>
          by_cases hrule :
              (act && substrIn "test" (normalize_name (mergePatch a patch).name) && !force) = true
          · simp [update_application, hg, hc, hn, hia, hrule]
          · by_cases hev : (act && (mode == EVENTUAL)) = true
            · simp [update_application, hg, hc, hn, hia, hrule, hev] at h
            · simp [update_application, hg, hc, hn, hia, hrule, hev, commitUpdate] at h

/-- Witness for C7: a request on an empty store is rejected not-found and
changes nothing. -/
theorem rejected_update_unchanged_witness :
    (update_application [] "a" "e" {} false "immediate").2.1 = [] ∧
    (update_application [] "a" "e" {} false "immediate").2.2 = none :=
  rejected_update_unchanged [] "a" "e" {} false "immediate" (Or.inl (by decide))

/-- C2 (corrected): a precondition token that is neither the entity's current
fingerprint nor a weak form embedding a *parseable* integer equal to the
current version fails and leaves the entity unchanged — but a weak form whose
embedded text does not parse as an integer fails with an uncaught number-parse
error (`ValueError` from `int()`), not with the precondition error the claim
demands; the store is unchanged in every such case. -/
theorem precondition_check_corrected (apps : Apps) (app_id if_match : String)
    (patch : PatchData) (force : Bool) (mode : String) (a : AppRecord)
    (hget : get_application apps app_id = some a) :
    (pyStartswith weakPrefix if_match = false → if_match ≠ a.etag.getD "" →
       update_application apps app_id if_match patch force mode =
         (.preconditionFailed, apps, none)) ∧
    (pyStartswith weakPrefix if_match = true →
       pyInt (weakVersionText if_match) = none →
       update_application apps app_id if_match patch force mode =
         (.valueError, apps, none)) ∧
    (∀ v : Int, pyStartswith weakPrefix if_match = true →
       pyInt (weakVersionText if_match) = some v →
       v ≠ (a.version : Int) →
       update_application apps app_id if_match patch force mode =
         (.preconditionFailed, apps, none)) := by
  refine ⟨fun h1 h2 => ?_, fun h1 h2 => ?_, fun v h1 h2 h3 => ?_⟩ <;>
    simp [update_application, hget, checkIfMatch, h1, h2, *]

set_option maxRecDepth 1000000 in
/-- Counterexample for C2: on a freshly created entity, the malformed weak
token `W/"x"` produces the parse-error outcome, not a precondition failure. -/
theorem weak_precondition_parse_error_cex :
    update_application cexSt1.applications "a" wBad {} false "immediate" =
      (.valueError, cexSt1.applications, none) := by decide

/-- Witness for C2: the three rejection shapes at concrete inputs — strong
mismatch, malformed weak token, and stale weak version. -/
theorem precondition_check_corrected_witness :
    (update_application [("a", recW)] "a" "f" {} false "immediate" =
       (.preconditionFailed, [("a", recW)], none)) ∧
    (update_application [("a", recW)] "a" wBad {} false "immediate" =
       (.valueError, [("a", recW)], none)) ∧
    (update_application [("a", recW)] "a" wTwo {} false "immediate" =
       (.preconditionFailed, [("a", recW)], none)) :=
  ⟨(precondition_check_corrected [("a", recW)] "a" "f" {} false "immediate" recW
      (by decide)).1 (by decide) (by decide),
   (precondition_check_corrected [("a", recW)] "a" wBad {} false "immediate" recW
      (by decide)).2.1 (by decide) (by decide),
   (precondition_check_corrected [("a", recW)] "a" wTwo {} false "immediate" recW
      (by decide)).2.2 2 (by decide) (by decide) (by decide)⟩

/-- C3 (corrected): version is 1 at creation, and every *synchronous* commit
of an update — the 200 path and the synchronous half of the eventual path —
increments version by exactly 1 and stores a recomputed fingerprint; but the
deferred activation write of eventual mode sets `active = true` on the current
record without changing version or fingerprint, contradicting the claim that
it, too, bumps the version and refreshes the fingerprint. -/
theorem version_increment_corrected :
    (∀ (st : ServerState) (token key name : String) (desc : Option String) (now : Int)
       (app_id cat : String) (b : AppRecord) (st2 : ServerState),
       create_application st token key name desc now app_id cat = (.created b, st2) →
       b.version = 1) ∧
    (∀ (apps : Apps) (app_id if_match : String) (patch : PatchData) (force : Bool)
       (mode : String) (a b : AppRecord) (apps2 : Apps) (task : Option String),
       get_application apps app_id = some a →
       update_application apps app_id if_match patch force mode = (.ok b, apps2, task) →
       b.version = a.version + 1 ∧
       b.etag = some (generate_etag b.version { b with etag := a.etag }) ∧
       get_application apps2 app_id = some b) ∧
    (∀ (apps : Apps) (app_id if_match : String) (patch : PatchData) (force : Bool)
       (mode : String) (a : AppRecord) (apps2 : Apps) (task : Option String),
       get_application apps app_id = some a →
       update_application apps app_id if_match patch force mode = (.activating, apps2, task) →
       (get_application apps2 app_id).map AppRecord.version = some (a.version + 1) ∧
       (get_application apps2 app_id).map AppRecord.is_active = some a.is_active ∧
       (get_application apps2 app_id).map AppRecord.etag =
         some (some (generate_etag (a.version + 1)
           { mergePatch a patch with version := a.version + 1 })) ∧
       task = some app_id) ∧
    (∀ (apps : Apps) (app_id : String) (a : AppRecord),
       get_application apps app_id = some a →
       get_application (activate_later apps app_id) app_id =
         some { a with is_active := true }) := by
  refine ⟨?_, ?_, ?_, ?_⟩
  · intro st token key name desc now app_id cat b st2 hEq
    simp only [create_application] at hEq
    repeat' split at hEq
    all_goals simp only [Prod.mk.injEq, CreateResult.created.injEq] at hEq
    all_goals try (obtain ⟨hb, hSt⟩ := hEq; subst hb; subst hSt)
    all_goals simp_all
  · intro apps app_id if_match patch force mode a b apps2 task hget hEq
    simp only [update_application, hget, commitUpdate] at hEq
    repeat' split at hEq
    all_goals simp only [Prod.mk.injEq, UpdateResult.ok.injEq] at hEq
    all_goals try (obtain ⟨hb, hApps, hTask⟩ := hEq; subst hb; subst hApps; subst hTask)
    all_goals
      simp_all [svc_update_application, get_application,
        dictGet_dictSet_self, mergePatch_version, mergePatch_etag]
  · intro apps app_id if_match patch force mode a apps2 task hget hEq
    simp only [update_application, hget, commitUpdate] at hEq
    repeat' split at hEq
    all_goals simp only [Prod.mk.injEq] at hEq
    all_goals try (obtain ⟨hr, hApps, hTask⟩ := hEq; subst hApps; subst hTask)
    all_goals
      simp_all [svc_update_application, get_application,
        dictGet_dictSet_self, mergePatch_version, mergePatch_etag, mergePatch_is_active]
  · intro apps app_id a hget
    simp only [get_application] at hget
    simp [activate_later, get_application, hget, svc_update_application, dictGet_dictSet_self]

set_option maxRecDepth 1000000 in
/-- Counterexample for C3: after an eventual-mode activation commit, the
deferred task writes a record that differs from the committed one only in the
active flag — same version, same fingerprint — so the deferred write is an
accepted mutation with no version bump and no fingerprint change. -/
theorem deferred_activation_no_version_bump_cex :
    (dictGet cexApps2 "a").map AppRecord.is_active = some false ∧
    dictGet cexApps3 "a" =
      (dictGet cexApps2 "a").map (fun r => { r with is_active := true }) := by decide

set_option maxRecDepth 1000000 in
/-- Witness for C3: each amended conjunct at a concrete input. -/
theorem version_increment_corrected_witness :
    ((createdBody (create_application emptyState "tok" "k" "app" none 0 "a" "t").1).version
       = 1) ∧
    ((okBody updOkW.1).version = recW.version + 1 ∧
     (okBody updOkW.1).etag =
       some (generate_etag (okBody updOkW.1).version { okBody updOkW.1 with etag := recW.etag }) ∧
     get_application updOkW.2.1 "a" = some (okBody updOkW.1)) ∧
    ((get_application updEvW.2.1 "a").map AppRecord.version = some (recW.version + 1) ∧
     (get_application updEvW.2.1 "a").map AppRecord.is_active = some recW.is_active ∧
     (get_application updEvW.2.1 "a").map AppRecord.etag =
       some (some (generate_etag (recW.version + 1)
         { mergePatch recW { is_active := some true } with version := recW.version + 1 })) ∧
     updEvW.2.2 = some "a") ∧
    (get_application (activate_later [("a", recW)] "a") "a" =
       some { recW with is_active := true }) :=
  ⟨version_increment_corrected.1 emptyState "tok" "k" "app" none 0 "a" "t"
     (createdBody (create_application emptyState "tok" "k" "app" none 0 "a" "t").1)
     (create_application emptyState "tok" "k" "app" none 0 "a" "t").2 (by decide),
   version_increment_corrected.2.1 [("a", recW)] "a" "e"
     { description := some (some "d") } false "immediate" recW
     (okBody updOkW.1) updOkW.2.1 updOkW.2.2 (by decide) (by decide),
   version_increment_corrected.2.2.1 [("a", recW)] "a" "e"
     { is_active := some true } false "eventual" recW updEvW.2.1 updEvW.2.2
     (by decide) (by decide),
   version_increment_corrected.2.2.2 [("a", recW)] "a" recW (by decide)⟩

/-- C8 (confirmed): when a patch sets `active = true` on an entity that passed
the earlier checks, the update is rejected with the distinguished
NAME_FORBIDS_ACTIVATION outcome, with no mutation, exactly when the post-merge
normalized name contains "test" and the override flag is absent; with the
override flag, or when the post-merge name lacks "test", the rule does not
fire and activation proceeds (202 in eventual mode, otherwise 200 with the
active flag set). -/
theorem activation_rule_confirmed (apps : Apps) (app_id if_match : String)
    (patch : PatchData) (force : Bool) (mode : String) (a : AppRecord)
    (hget : get_application apps app_id = some a)
    (hpre : checkIfMatch if_match a = .pass)
    (hname : ∀ n, patch.name = some n → is_name_unique apps n (some app_id) = true)
    (hact : patch.is_active = some true) :
    (substrIn "test" (normalize_name (mergePatch a patch).name) = true → force = false →
       update_application apps app_id if_match patch force mode =
         (.nameForbidsActivation, apps, none)) ∧
    ((force = true ∨ substrIn "test" (normalize_name (mergePatch a patch).name) = false) →
       ((update_application apps app_id if_match patch force mode).1 ≠
          .nameForbidsActivation ∧
        (mode = EVENTUAL →
          (update_application apps app_id if_match patch force mode).1 = .activating) ∧
        (mode ≠ EVENTUAL →
          ∃ b, (update_application apps app_id if_match patch force mode).1 = .ok b ∧
               b.is_active = true))) := by
  have hnc :
      (patch.name.isSome && !is_name_unique apps (patch.name.getD "") (some app_id)) = false := by
    rcases hn : patch.name with _ | n
    · simp [hn]
    · simp [hn, hname n hn]
  constructor
  · intro hsub hforce
    simp [update_application, hget, hpre, hnc, hact, hsub, hforce]
  · intro hor
    have hcond :
        ¬(substrIn "test" (normalize_name (mergePatch a patch).name) = true ∧
          force = false) := by
      rcases hor with hf | hs
      · simp [hf]
      · simp [hs]
    refine ⟨?_, ?_, ?_⟩
    · by_cases hm : mode = EVENTUAL
      · simp [update_application, hget, hpre, hnc, hact, hcond, hm]
      · simp [update_application, hget, hpre, hnc, hact, hcond, hm, commitUpdate]
    · intro hm
      simp [update_application, hget, hpre, hnc, hact, hcond, hm]
    · intro hm
      simp [update_application, hget, hpre, hnc, hact, hcond, hm, commitUpdate]

/-- Witness for C8: against a record named "mytest", activation without the
override is rejected with the distinguished outcome and no mutation; with the
override it succeeds and sets the active flag. -/
theorem activation_rule_confirmed_witness :
    (update_application [("a", recT)] "a" "e" { is_active := some true } false "immediate" =
       (.nameForbidsActivation, [("a", recT)], none)) ∧
    (∃ b, (update_application [("a", recT)] "a" "e" { is_active := some true } true
             "immediate").1 = .ok b ∧ b.is_active = true) :=
  ⟨(activation_rule_confirmed [("a", recT)] "a" "e" { is_active := some true } false
      "immediate" recT (by decide) (by decide) (by simp) rfl).1 (by decide) rfl,
   ((activation_rule_confirmed [("a", recT)] "a" "e" { is_active := some true } true
      "immediate" recT (by decide) (by decide) (by simp) rfl).2 (Or.inl rfl)).2.2
     (by decide)⟩

/-- C5 (corrected): after pruning instants older than 60 seconds, a full
window rejects without recording an instant and reports the time until the
oldest retained instant leaves the window, truncated to whole seconds and
clamped to be non-negative — so the value is never negative but *can be 0*
for a 6th request arriving less than one second before the oldest instant
expires (it is at least 1 only when a full second remains); a window below
the limit admits and records the current instant. -/
theorem rate_limiter_corrected (records : RateRecords) (token : String) (now : Int)
    (kept : List Int)
    (hkept : kept =
      ((dictGet records token).getD []).filter (fun t => decide (now - MINUTE_US < t))) :
    (MAX_REQUESTS_PER_MINUTE ≤ kept.length →
       check_rate_limit records token now =
         (false, some (max 0 (Int.tdiv (kept.headD 0 - (now - MINUTE_US)) 1000000)),
          dictSet records token kept) ∧
       0 ≤ max 0 (Int.tdiv (kept.headD 0 - (now - MINUTE_US)) 1000000) ∧
       (1000000 ≤ kept.headD 0 - (now - MINUTE_US) →
          1 ≤ max 0 (Int.tdiv (kept.headD 0 - (now - MINUTE_US)) 1000000))) ∧
    (kept.length < MAX_REQUESTS_PER_MINUTE →
       check_rate_limit records token now =
         (true, none, dictSet records token (kept ++ [now]))) := by
  subst hkept
  constructor
  · intro hfull
    refine ⟨by simp [check_rate_limit, hfull], le_max_left _ _, fun hbig => ?_⟩
    have h1 : (1 : Int) ≤ Int.tdiv
        ((((dictGet records token).getD []).filter
            (fun t => decide (now - MINUTE_US < t))).headD 0 - (now - MINUTE_US)) 1000000 := by
      rw [Int.tdiv_eq_ediv (by omega) (by omega)]
      calc (1 : Int) = 1000000 / 1000000 := by decide
        _ ≤ _ := Int.ediv_le_ediv (by omega) hbig
    exact le_trans h1 (le_max_right 0 _)
  · intro hlt
    simp [check_rate_limit, Nat.not_le.mpr hlt]

/-- Counterexample for C5: a 6th request 59.5 seconds into the window of five
admitted instants is rejected with retry-after 0 — not the positive value the
claim requires. -/
theorem retry_after_zero_cex :
    check_rate_limit [("t", [500000, 1000000, 2000000, 3000000, 4000000])] "t" 60000000 =
      (false, some 0, [("t", [500000, 1000000, 2000000, 3000000, 4000000])]) := by decide

/-- Witness for C5: a full window rejects with the truncated remaining time
(10 s here) and records nothing; an empty window admits and records the call
instant. -/
theorem rate_limiter_corrected_witness :
    check_rate_limit [("t", [10000000, 20000000, 30000000, 40000000, 50000000])] "t"
        60000000 =
      (false, some 10, [("t", [10000000, 20000000, 30000000, 40000000, 50000000])]) ∧
    check_rate_limit [] "t" 0 = (true, none, [("t", [0])]) :=
  ⟨(((rate_limiter_corrected [("t", [10000000, 20000000, 30000000, 40000000, 50000000])]
        "t" 60000000 _ rfl).1 (by decide)).1).trans (by decide),
   ((rate_limiter_corrected [] "t" 0 _ rfl).2 (by decide)).trans (by decide)⟩

/-- A record stored in the idempotency ledger is found again. -/
theorem get_record_store_record_self (idem : IdemRecords) (token key : String)
    (b : AppRecord) : get_record (store_record idem token key b) token key = some b := by
  simp [get_record, store_record, dictGet_dictSet_self]

/-- C4 (corrected): the rate limiter runs *before* the idempotency lookup and
records every admitted call, so a replay of a cached (token, key) does consume
rate-limit budget: when admitted, the replayed request appends its own instant
to the token's window (it is not free, contrary to the claim); and when the
window is already full the replay is answered with a rate-limit rejection
rather than from the cache. -/
theorem replay_consumes_budget (st : ServerState) (token key name : String)
    (desc : Option String) (now : Int) (app_id cat : String) (body : AppRecord)
    (hcached : get_record st.idem_records token key = some body) :
    ((check_rate_limit st.rate_records token now).1 = true →
       create_application st token key name desc now app_id cat =
         (.cached body,
          { st with rate_records := (check_rate_limit st.rate_records token now).2.2 }) ∧
       dictGet (check_rate_limit st.rate_records token now).2.2 token =
         some ((((dictGet st.rate_records token).getD []).filter
                  (fun t => decide (now - MINUTE_US < t))) ++ [now])) ∧
    ((check_rate_limit st.rate_records token now).1 = false →
       (create_application st token key name desc now app_id cat).1 =
         .rateLimited (((check_rate_limit st.rate_records token now).2.1).getD 0)) := by
  constructor
  · intro hallow
    have hfull : ¬(MAX_REQUESTS_PER_MINUTE ≤
        (((dictGet st.rate_records token).getD []).filter
          (fun t => decide (now - MINUTE_US < t))).length) := by
      intro hf
      simp [check_rate_limit, hf] at hallow
    constructor
    · simp [create_application, hallow, hcached]
    · simp [check_rate_limit, hfull, dictGet_dictSet_self]
  · intro hdeny
    simp [create_application, hdeny]

set_option maxRecDepth 1000000 in
/-- Counterexample for C4: after a create cached under (`tok`, `k`) at
instant 0, a replay of the same pair at instant 1 is answered from the cache
*but* the token's window now holds both instants — the replay consumed
rate-limit budget. -/
theorem replay_rate_budget_cex :
    (create_application cexSt1 "tok" "k" "zzz" none 1 "b" "u").1 =
      .cached (createdBody (create_application emptyState "tok" "k" "app" none 0 "a" "t").1) ∧
    dictGet (create_application cexSt1 "tok" "k" "zzz" none 1 "b" "u").2.rate_records "tok" =
      some [0, 1] := by decide

/-- Witness for C4: a replay against a ledger-only state is served from the
cache while the window gains the call instant. -/
theorem replay_consumes_budget_witness :
    create_application stIdemW "tok" "k" "n" none 0 "b" "t" =
      (.cached recW,
       { applications := [], rate_records := [("tok", [0])],
         idem_records := [("tok", [("k", recW)])] }) := by
  have h := (replay_consumes_budget stIdemW "tok" "k" "n" none 0 "b" "t" recW
    (by decide)).1 (by decide)
  exact h.1.trans (by decide)

/-- C1 (corrected): the first create that completes creation stores its full
response under (token, key); a subsequent create bearing the same pair that
the rate limiter *admits* returns exactly the stored response regardless of
payload and modifies neither the entity store nor the ledger; failed attempts
(rate-limit rejections and name conflicts) are never stored, so a retry
re-executes the chain — but, contrary to the claim, not *every* subsequent
bearer of the pair gets the stored response: the rate limiter runs first, so
a replay arriving on a full window is rejected with a rate-limit error. -/
theorem create_idempotency_corrected :
    (∀ (st : ServerState) (token key name : String) (desc : Option String) (now : Int)
       (app_id cat : String) (b : AppRecord) (st2 : ServerState),
       create_application st token key name desc now app_id cat = (.created b, st2) →
       get_record st2.idem_records token key = some b) ∧
    (∀ (st : ServerState) (token key name : String) (desc : Option String) (now : Int)
       (app_id cat : String) (body : AppRecord),
       get_record st.idem_records token key = some body →
       (check_rate_limit st.rate_records token now).1 = true →
       (create_application st token key name desc now app_id cat).1 = .cached body ∧
       (create_application st token key name desc now app_id cat).2.applications =
         st.applications ∧
       (create_application st token key name desc now app_id cat).2.idem_records =
         st.idem_records) ∧
    (∀ (st : ServerState) (token key name : String) (desc : Option String) (now : Int)
       (app_id cat : String),
       ((create_application st token key name desc now app_id cat).1).isFailure = true →
       (create_application st token key name desc now app_id cat).2.idem_records =
         st.idem_records ∧
       (create_application st token key name desc now app_id cat).2.applications =
         st.applications) := by
  refine ⟨?_, ?_, ?_⟩
  · intro st token key name desc now app_id cat b st2 hEq
    simp only [create_application] at hEq
    repeat' split at hEq
    all_goals simp only [Prod.mk.injEq, CreateResult.created.injEq] at hEq
    all_goals try (obtain ⟨hb, hSt⟩ := hEq; subst hb; subst hSt)
    all_goals simp_all [get_record_store_record_self]
  · intro st token key name desc now app_id cat body hcached hallow
    refine ⟨?_, ?_, ?_⟩ <;> simp [create_application, hallow, hcached]
  · intro st token key name desc now app_id cat hfail
    by_cases hrl : (check_rate_limit st.rate_records token now).1 = true
    · cases hc : get_record st.idem_records token key with
      | some body => simp [create_application, hrl, hc, CreateResult.isFailure] at hfail
      | none =>
        by_cases hu : is_name_unique st.applications name none = true
        · simp [create_application, hrl, hc, hu, CreateResult.isFailure] at hfail
        · constructor <;> simp [create_application, hrl, hc, hu]
    · constructor <;> simp [create_application, hrl]

set_option maxRecDepth 1000000 in
/-- Counterexample for C1: after five admitted creates fill the window, the
(token, key) pair `("tok", "k1")` has a stored response, yet the next create
bearing that pair is answered with a rate-limit rejection, not the stored
response. -/
theorem create_replay_rate_limited_cex :
    (get_record cexC1s5.idem_records "tok" "k1").isSome = true ∧
    (create_application cexC1s5 "tok" "k1" "different" none 0 "b" "u").1 =
      .rateLimited 60 := by decide

set_option maxRecDepth 1000000 in
/-- Witness for C1: the store-on-success, admitted-replay and
failure-not-stored conjuncts at concrete inputs. -/
theorem create_idempotency_corrected_witness :
    (get_record (create_application emptyState "tok" "k" "app" none 0 "a" "t").2.idem_records
       "tok" "k" =
       some (createdBody (create_application emptyState "tok" "k" "app" none 0 "a" "t").1)) ∧
    ((create_application stIdemW "tok" "k" "zzz" none 0 "b" "t").1 = .cached recW ∧
     (create_application stIdemW "tok" "k" "zzz" none 0 "b" "t").2.applications =
       stIdemW.applications ∧
     (create_application stIdemW "tok" "k" "zzz" none 0 "b" "t").2.idem_records =
       stIdemW.idem_records) ∧
    ((create_application stFullW "tok" "k" "n" none 0 "b" "t").2.idem_records =
       stFullW.idem_records ∧
     (create_application stFullW "tok" "k" "n" none 0 "b" "t").2.applications =
       stFullW.applications) :=
  ⟨create_idempotency_corrected.1 emptyState "tok" "k" "app" none 0 "a" "t"
     (createdBody (create_application emptyState "tok" "k" "app" none 0 "a" "t").1)
     (create_application emptyState "tok" "k" "app" none 0 "a" "t").2 (by decide),
   create_idempotency_corrected.2.1 stIdemW "tok" "k" "zzz" none 0 "b" "t" recW
     (by decide) (by decide),
   create_idempotency_corrected.2.2 stFullW "tok" "k" "n" none 0 "b" "t" (by decide)⟩

/-- The body of a successful create is determined by the request payload and
the environmental inputs (fresh id and timestamp) alone. -/
theorem create_created_body (st : ServerState) (token key name : String)
    (desc : Option String) (now : Int) (app_id cat : String) (b : AppRecord)
    (s2 : ServerState)
    (hEq : create_application st token key name desc now app_id cat = (.created b, s2)) :
    b = { id := app_id, name := name, description := desc, is_active := false, version := 1,
          created_at := cat,
          etag := some (generate_etag 1
            { id := app_id, name := name, description := desc, is_active := false,
              version := 1, created_at := cat, etag := none }) } := by
  simp only [create_application] at hEq
  repeat' split at hEq
  all_goals simp only [Prod.mk.injEq, CreateResult.created.injEq] at hEq
  all_goals try (obtain ⟨hb, hSt⟩ := hEq; subst hb; subst hSt)
  all_goals simp_all

/-- C6 (corrected): the fingerprint is a pure function of the version and the
*serialized dict contents* — identical serializations yield identical digests,
and create-produced records are fully determined by their payload — but the
serialization on the update path still contains the record's *previous*
fingerprint, so the fingerprint is not a function of the claimed
(version, name, description, active, createdAt, id) tuple: update-produced
records with identical tuples can carry different fingerprints. -/
theorem etag_purity_corrected :
    (∀ (v : Nat) (r1 r2 : AppRecord), dictStr r1 = dictStr r2 →
       generate_etag v r1 = generate_etag v r2) ∧
    (∀ (st1 st2 : ServerState) (token1 token2 key1 key2 name : String)
       (desc : Option String) (now1 now2 : Int) (app_id cat : String)
       (b1 b2 : AppRecord) (s1 s2 : ServerState),
       create_application st1 token1 key1 name desc now1 app_id cat = (.created b1, s1) →
       create_application st2 token2 key2 name desc now2 app_id cat = (.created b2, s2) →
       b1 = b2) := by
  constructor
  · intro v r1 r2 h
    simp [generate_etag, h]
  · intro st1 st2 token1 token2 key1 key2 name desc now1 now2 app_id cat b1 b2 s1 s2 h1 h2
    rw [create_created_body st1 token1 key1 name desc now1 app_id cat b1 s1 h1,
        create_created_body st2 token2 key2 name desc now2 app_id cat b2 s2 h2]

set_option maxRecDepth 1000000 in
/-- Counterexample for C6: two update-produced records with identical
(version, name, description, active, createdAt, id) tuples whose fingerprints
differ, because their pre-update fingerprints (hashed along with the rest of
the dict) differed. -/
theorem etag_not_tuple_pure_cex :
    (dictGet cexC6A "a").map specTuple = (dictGet cexC6B "a").map specTuple ∧
    (dictGet cexC6A "a").map AppRecord.etag ≠ (dictGet cexC6B "a").map AppRecord.etag := by
  decide

set_option maxRecDepth 1000000 in
/-- Witness for C6: equal serializations give equal fingerprints, and two
creates of the same payload under different tokens, keys, instants and states
produce identical bodies. -/
theorem etag_purity_corrected_witness :
    generate_etag 1 recW = generate_etag 1 { recW with name := "n" } ∧
    createdBody (create_application emptyState "tok" "k" "app" none 0 "a" "t").1 =
      createdBody (create_application emptyState "oth" "q" "app" none 5 "a" "t").1 :=
  ⟨etag_purity_corrected.1 1 recW { recW with name := "n" } (by decide),
   etag_purity_corrected.2 emptyState emptyState "tok" "oth" "k" "q" "app" none 0 5 "a" "t"
     (createdBody (create_application emptyState "tok" "k" "app" none 0 "a" "t").1)
     (createdBody (create_application emptyState "oth" "q" "app" none 5 "a" "t").1)
     (create_application emptyState "tok" "k" "app" none 0 "a" "t").2
     (create_application emptyState "oth" "q" "app" none 5 "a" "t").2
     (by decide) (by decide)⟩

/-- The first create against the empty state is admitted, creates the entity,
and caches the response. -/
theorem create_first_from_empty (token key name : String) (desc : Option String)
    (now : Int) (app_id cat : String) :
    create_application emptyState token key name desc now app_id cat =
      (.created { id := app_id, name := name, description := desc, is_active := false,
                  version := 1, created_at := cat,
                  etag := some (generate_etag 1
                    { id := app_id, name := name, description := desc, is_active := false,
                      version := 1, created_at := cat, etag := none }) },
       { applications := [(app_id,
           { id := app_id, name := name, description := desc, is_active := false,
             version := 1, created_at := cat,
             etag := some (generate_etag 1
               { id := app_id, name := name, description := desc, is_active := false,
                 version := 1, created_at := cat, etag := none }) })],
         rate_records := [(token, [now])],
         idem_records := [(token, [(key,
           { id := app_id, name := name, description := desc, is_active := false,
             version := 1, created_at := cat,
             etag := some (generate_etag 1
               { id := app_id, name := name, description := desc, is_active := false,
                 version := 1, created_at := cat, etag := none }) })])] }) := rfl

/-- A create bearing a cached (token, key) with fewer than five instants in
the window is admitted, appends its instant, and replays the cache. -/
theorem create_cached_replay (apps : Apps) (idem : IdemRecords) (token key name : String)
    (desc : Option String) (now : Int) (app_id cat : String) (b : AppRecord) (k : Nat)
    (hcached : get_record idem token key = some b) (hk : k ≤ 4) :
    create_application
      { applications := apps, rate_records := [(token, List.replicate k now)],
        idem_records := idem } token key name desc now app_id cat =
      (.cached b,
       { applications := apps, rate_records := [(token, List.replicate (k + 1) now)],
         idem_records := idem }) := by
  have hkept : (List.replicate k now).filter (fun t => decide (now - MINUTE_US < t)) =
      List.replicate k now := by
    apply List.filter_eq_self.mpr
    intro t ht
    have h := List.eq_of_mem_replicate ht
    subst h
    simp only [decide_eq_true_eq, MINUTE_US]
    omega
  have hlen : ¬(MAX_REQUESTS_PER_MINUTE ≤ k) := by
    simp only [MAX_REQUESTS_PER_MINUTE]
    omega
  simp [create_application, check_rate_limit, dictGet, dictSet, hkept, hlen, hcached,
    List.replicate_succ']

/-- Simultaneous replays of a cached pair, while the window stays within the
limit: every caller gets the identical cached body and only the window grows. -/
theorem runCreates_cached (apps : Apps) (idem : IdemRecords) (token key name : String)
    (desc : Option String) (now : Int) (app_id cat : String) (b : AppRecord)
    (hcached : get_record idem token key = some b) :
    ∀ (m k : Nat), 1 ≤ k → k + m ≤ 5 →
    runCreates { applications := apps, rate_records := [(token, List.replicate k now)],
                 idem_records := idem } token key name desc now app_id cat m =
      (List.replicate m (.cached b),
       { applications := apps, rate_records := [(token, List.replicate (k + m) now)],
         idem_records := idem }) := by
  intro m
  induction m with
  | zero => intro k h1 h5; simp [runCreates]
  | succ m ih =>
    intro k h1 h5
    have hstep := create_cached_replay apps idem token key name desc now app_id cat b k
      hcached (by omega)
    have hrest := ih (k + 1) (by omega) (by omega)
    simp only [runCreates, hstep, hrest]
    rw [show k + 1 + m = k + (m + 1) by omega]
    simp [List.replicate_succ]

/-- C10 (corrected): N simultaneous creates bearing the same (token, key)
persist exactly one entity, and — *provided N does not exceed the per-minute
rate limit of 5* — all N callers receive the identical body (the first as the
created response, the rest as cached replays); beyond the limit the claim
fails, because surplus callers are answered by the rate limiter instead of
the cache. -/
theorem concurrent_create_corrected (token key name : String) (desc : Option String)
    (now : Int) (app_id cat : String) (N : Nat) (h2 : 2 ≤ N) (h5 : N ≤ 5) :
    (runCreates emptyState token key name desc now app_id cat N).2.applications.length = 1 ∧
    ∃ b, (runCreates emptyState token key name desc now app_id cat N).1 =
           .created b :: List.replicate (N - 1) (.cached b) ∧
         ∀ r ∈ (runCreates emptyState token key name desc now app_id cat N).1,
           r = .created b ∨ r = .cached b := by
  obtain ⟨m, rfl⟩ : ∃ m, N = m + 1 := ⟨N - 1, by omega⟩
  have hfirst := create_first_from_empty token key name desc now app_id cat
  set b : AppRecord :=
    { id := app_id, name := name, description := desc, is_active := false,
      version := 1, created_at := cat,
      etag := some (generate_etag 1
        { id := app_id, name := name, description := desc, is_active := false,
          version := 1, created_at := cat, etag := none }) } with hbdef
  have hcached : get_record [(token, [(key, b)])] token key = some b := by
    simp [get_record, dictGet]
  have hrun := runCreates_cached [(app_id, b)] [(token, [(key, b)])] token key name desc now
      app_id cat b hcached m 1 (by omega) (by omega)
  rw [List.replicate_one] at hrun
  simp only [runCreates, hfirst, hrun]
  refine ⟨rfl, b, by simp, ?_⟩
  intro r hr
  rcases List.mem_cons.mp hr with h | h
  · exact Or.inl h
  · exact Or.inr (List.eq_of_mem_replicate h)

set_option maxRecDepth 1000000 in
/-- Counterexample for C10: six simultaneous creates with one (token, key)
still persist exactly one entity, but the callers do *not* all receive the
same body — the sixth is rejected by the rate limiter while the second is a
cache replay. -/
theorem six_concurrent_creates_cex :
    (runCreates emptyState "tok" "k" "n" none 0 "a" "t" 6).2.applications.length = 1 ∧
    (runCreates emptyState "tok" "k" "n" none 0 "a" "t" 6).1.getD 5 .conflict =
      .rateLimited 60 ∧
    (runCreates emptyState "tok" "k" "n" none 0 "a" "t" 6).1.getD 1 .conflict ≠
      .rateLimited 60 := by decide

/-- Witness for C10: three simultaneous creates of one pair persist one entity
and return one created plus two identical cached responses. -/
theorem concurrent_create_corrected_witness :
    (runCreates emptyState "t" "k" "n" none 0 "a" "c" 3).2.applications.length = 1 ∧
    ∃ b, (runCreates emptyState "t" "k" "n" none 0 "a" "c" 3).1 =
           .created b :: List.replicate (3 - 1) (.cached b) ∧
         ∀ r ∈ (runCreates emptyState "t" "k" "n" none 0 "a" "c" 3).1,
           r = .created b ∨ r = .cached b :=
  concurrent_create_corrected "t" "k" "n" none 0 "a" "c" 3 (by decide) (by decide)

/-- `is_name_unique` as a statement about every live entity. -/
theorem is_name_unique_eq_true_iff (apps : Apps) (name : String) (ex : Option String) :
    is_name_unique apps name ex = true ↔
      ∀ p ∈ apps, some p.1 ≠ ex → normalize_name p.2.name ≠ normalize_name name := by
  simp only [is_name_unique, Bool.not_eq_true', List.any_eq_false]
  constructor
  · intro h p hp hne hcon
    exact h p hp (by simp [hne, hcon])
  · intro h p hp hx
    simp only [Bool.and_eq_true, Bool.not_eq_true', beq_eq_false_iff_ne, beq_iff_eq] at hx
    exact h p hp hx.1 hx.2

/-- A successful dict lookup exhibits a member. -/
theorem dictGet_mem (m : Apps) (k : String) (a : AppRecord)
    (h : dictGet m k = some a) : (k, a) ∈ m := by
  induction m with
  | nil => simp [dictGet] at h
  | cons p rest ih =>
    simp only [dictGet] at h
    split at h
    · next hb =>
      simp only [beq_iff_eq] at hb
      simp only [Option.some.injEq] at h
      subst hb
      subst h
      simp
    · exact List.mem_cons_of_mem _ (ih h)

/-- Members of a dict after assignment: the new pair or an old member. -/
theorem mem_dictSet (m : Apps) (k : String) (v : AppRecord) (q : String × AppRecord)
    (h : q ∈ dictSet m k v) : q = (k, v) ∨ q ∈ m := by
  induction m with
  | nil => simpa [dictSet] using h
  | cons p rest ih =>
    simp only [dictSet] at h
    split at h
    · rcases List.mem_cons.mp h with h1 | h1
      · exact Or.inl h1
      · exact Or.inr (List.mem_cons_of_mem _ h1)
    · rcases List.mem_cons.mp h with h1 | h1
      · subst h1
        exact Or.inr (List.mem_cons_self _ _)
      · rcases ih h1 with h2 | h2
        · exact Or.inl h2
        · exact Or.inr (List.mem_cons_of_mem _ h2)

/-- In a well-formed store, the record at a key has a normalized name
distinct from every other entry. -/
theorem names_differ_at_key (m : Apps) (k : String) (a : AppRecord) :
    KeysNodup m → NamesDistinct m → dictGet m k = some a →
    ∀ p ∈ m, p.1 ≠ k → normalize_name a.name ≠ normalize_name p.2.name := by
  induction m with
  | nil => intro _ _ hg; simp [dictGet] at hg
  | cons q rest ih =>
    intro hk hn hg p hp hpk
    simp only [KeysNodup, List.map_cons, List.nodup_cons] at hk
    simp only [NamesDistinct, List.map_cons, List.nodup_cons] at hn
    obtain ⟨hk1, hk2⟩ := hk
    obtain ⟨hn1, hn2⟩ := hn
    simp only [dictGet] at hg
    split at hg
    · next hb =>
      simp only [beq_iff_eq] at hb
      simp only [Option.some.injEq] at hg
      subst hg
      rcases List.mem_cons.mp hp with h1 | h1
      · subst h1
        exact absurd hb hpk
      · intro hcon
        exact hn1 (hcon ▸ List.mem_map_of_mem _ h1)
    · rcases List.mem_cons.mp hp with h1 | h1
      · subst h1
        have hmem := dictGet_mem rest k a hg
        intro hcon
        exact hn1 (hcon ▸ List.mem_map_of_mem _ hmem)
      · exact ih hk2 hn2 hg p h1 hpk

/-- Dict assignment preserves key uniqueness and name distinctness when the
written record collides with no *other* entry. -/
theorem dictSet_preserves (m : Apps) (k : String) (v : AppRecord) :
    KeysNodup m → NamesDistinct m →
    (∀ p ∈ m, p.1 ≠ k → normalize_name v.name ≠ normalize_name p.2.name) →
    KeysNodup (dictSet m k v) ∧ NamesDistinct (dictSet m k v) := by
  induction m with
  | nil =>
    intro _ _ _
    simp [dictSet, KeysNodup, NamesDistinct]
  | cons p rest ih =>
    intro hk hn hv
    simp only [KeysNodup, List.map_cons, List.nodup_cons] at hk
    simp only [NamesDistinct, List.map_cons, List.nodup_cons] at hn
    obtain ⟨hk1, hk2⟩ := hk
    obtain ⟨hn1, hn2⟩ := hn
    simp only [dictSet]
    split
    · next hb =>
      simp only [beq_iff_eq] at hb
      subst hb
      constructor
      · simp only [KeysNodup, List.map_cons, List.nodup_cons]
        exact ⟨hk1, hk2⟩
      · simp only [NamesDistinct, List.map_cons, List.nodup_cons]
        refine ⟨?_, hn2⟩
        intro hmem
        rcases List.mem_map.mp hmem with ⟨q, hq, hqe⟩
        have hqk : q.1 ≠ p.1 := by
          intro hqk
          exact hk1 (hqk ▸ List.mem_map_of_mem _ hq)
        exact hv q (List.mem_cons_of_mem _ hq) hqk hqe.symm
    · next hb =>
      have hpk : p.1 ≠ k := by simpa using hb
      have hrest := ih hk2 hn2 (fun q hq hqk => hv q (List.mem_cons_of_mem _ hq) hqk)
      constructor
      · simp only [KeysNodup, List.map_cons, List.nodup_cons]
        refine ⟨?_, hrest.1⟩
        intro hmem
        rcases List.mem_map.mp hmem with ⟨q, hq, hqe⟩
        rcases mem_dictSet rest k v q hq with h1 | h1
        · subst h1
          exact hpk hqe.symm
        · exact hk1 (hqe ▸ List.mem_map_of_mem _ h1)
      · simp only [NamesDistinct, List.map_cons, List.nodup_cons]
        refine ⟨?_, hrest.2⟩
        intro hmem
        rcases List.mem_map.mp hmem with ⟨q, hq, hqe⟩
        rcases mem_dictSet rest k v q hq with h1 | h1
        · subst h1
          exact hv p (List.mem_cons_self _ _) hpk hqe
        · exact hn1 (hqe ▸ List.mem_map_of_mem _ h1)



/-- C9 (confirmed): key uniqueness and pairwise-distinct normalized names are
preserved by create, by update (all paths, including the eventual-activation
commit), and by the deferred activation write; moreover a create whose name
normalizes equal to a live entity is answered with a conflict (when it reaches
the uniqueness check), and an update renaming to a name that normalizes equal
to some *other* entity is answered with a conflict. -/
theorem name_uniqueness_invariant :
    (∀ (st : ServerState) (token key name : String) (desc : Option String) (now : Int)
       (app_id cat : String),
       KeysNodup st.applications → NamesDistinct st.applications →
       KeysNodup (create_application st token key name desc now app_id cat).2.applications ∧
       NamesDistinct (create_application st token key name desc now app_id cat).2.applications) ∧
    (∀ (apps : Apps) (app_id if_match : String) (patch : PatchData) (force : Bool)
       (mode : String),
       KeysNodup apps → NamesDistinct apps →
       KeysNodup (update_application apps app_id if_match patch force mode).2.1 ∧
       NamesDistinct (update_application apps app_id if_match patch force mode).2.1) ∧
    (∀ (apps : Apps) (app_id : String),
       KeysNodup apps → NamesDistinct apps →
       KeysNodup (activate_later apps app_id) ∧ NamesDistinct (activate_later apps app_id)) ∧
    (∀ (st : ServerState) (token key name : String) (desc : Option String) (now : Int)
       (app_id cat : String) (p : String × AppRecord),
       p ∈ st.applications → normalize_name p.2.name = normalize_name name →
       (check_rate_limit st.rate_records token now).1 = true →
       get_record st.idem_records token key = none →
       (create_application st token key name desc now app_id cat).1 = .conflict) ∧
    (∀ (apps : Apps) (app_id if_match : String) (patch : PatchData) (force : Bool)
       (mode : String) (a : AppRecord) (n : String) (q : String × AppRecord),
       get_application apps app_id = some a →
       checkIfMatch if_match a = .pass →
       patch.name = some n →
       q ∈ apps → q.1 ≠ app_id → normalize_name q.2.name = normalize_name n →
       (update_application apps app_id if_match patch force mode).1 = .conflict) := by
  refine ⟨?_, ?_, ?_, ?_, ?_⟩
  · intro st token key name desc now app_id cat hk hn
    by_cases hrl : (check_rate_limit st.rate_records token now).1 = true
    · cases hc : get_record st.idem_records token key with
      | some body =>
        simp only [create_application, hrl, hc]
        simp only [Bool.not_true, Bool.false_eq_true, if_false]
        exact ⟨hk, hn⟩
      | none =>
        by_cases hu : is_name_unique st.applications name none = true
        · have hv := (is_name_unique_eq_true_iff st.applications name none).mp hu
          simp [create_application, hrl, hc, hu, svc_create_application]
          exact dictSet_preserves _ _ _ hk hn
            (fun p hp hpk => Ne.symm (hv p hp (by simp)))
        · simp [create_application, hrl, hc, hu]
          exact ⟨hk, hn⟩
    · simp [create_application, hrl]
      exact ⟨hk, hn⟩
  · intro apps app_id if_match patch force mode hk hn
    cases hg : get_application apps app_id with
    | none =>
      simp [update_application, hg]
      exact ⟨hk, hn⟩
    | some a =>
      cases hc : checkIfMatch if_match a with
      | err =>
        simp [update_application, hg, hc]
        exact ⟨hk, hn⟩
      | fail =>
        simp [update_application, hg, hc]
        exact ⟨hk, hn⟩
      | pass =>
        by_cases hnc :
            (patch.name.isSome && !is_name_unique apps (patch.name.getD "") (some app_id)) = true
        · simp [update_application, hg, hc, hnc]
          exact ⟨hk, hn⟩
        · have hvm : ∀ p ∈ apps, p.1 ≠ app_id →
              normalize_name (mergePatch a patch).name ≠ normalize_name p.2.name := by
            cases hpn : patch.name with
            | none =>
              have hmn : (mergePatch a patch).name = a.name := by
                simp [mergePatch_name, hpn]
              rw [hmn]
              exact fun p hp hpk => names_differ_at_key apps app_id a hk hn hg p hp hpk
            | some n =>
              have hu : is_name_unique apps n (some app_id) = true := by
                cases hb2 : is_name_unique apps n (some app_id) with
                | true => rfl
                | false =>
                  exact absurd (by simp [hpn, hb2]) hnc
              have hmn : (mergePatch a patch).name = n := by
                simp [mergePatch_name, hpn]
              rw [hmn]
              intro p hp hpk
              exact Ne.symm
                ((is_name_unique_eq_true_iff apps n (some app_id)).mp hu p hp (by simp [hpk]))
          cases hia : patch.is_active with
          | none =>
            simp [update_application, hg, hc, hnc, hia, commitUpdate, svc_update_application]
            exact dictSet_preserves _ _ _ hk hn (fun p hp hpk => hvm p hp hpk)
          | some act =>
            by_cases hrule :
                (act && substrIn "test" (normalize_name (mergePatch a patch).name) && !force) = true
            · simp [update_application, hg, hc, hnc, hia, hrule]
              exact ⟨hk, hn⟩
            · by_cases hev : (act && (mode == EVENTUAL)) = true
              · simp [update_application, hg, hc, hnc, hia, hrule, hev, svc_update_application]
                exact dictSet_preserves _ _ _ hk hn (fun p hp hpk => hvm p hp hpk)
              · simp [update_application, hg, hc, hnc, hia, hrule, hev, commitUpdate,
                  svc_update_application]
                exact dictSet_preserves _ _ _ hk hn (fun p hp hpk => hvm p hp hpk)
  · intro apps app_id hk hn
    cases hg : get_application apps app_id with
    | none =>
      simp [activate_later, hg]
      exact ⟨hk, hn⟩
    | some a =>
      simp [activate_later, hg, svc_update_application]
      exact dictSet_preserves _ _ _ hk hn
        (fun p hp hpk => names_differ_at_key apps app_id a hk hn hg p hp hpk)
  · intro st token key name desc now app_id cat p hp hnorm hrl hc
    have hu : is_name_unique st.applications name none = false := by
      cases hb2 : is_name_unique st.applications name none with
      | false => rfl
      | true =>
        exact absurd hnorm
          ((is_name_unique_eq_true_iff st.applications name none).mp hb2 p hp (by simp))
    simp [create_application, hrl, hc, hu]
  · intro apps app_id if_match patch force mode a n q hget hpre hpn hq hqk hnorm
    have hu : is_name_unique apps n (some app_id) = false := by
      cases hb2 : is_name_unique apps n (some app_id) with
      | false => rfl
      | true =>
        exact absurd hnorm
          ((is_name_unique_eq_true_iff apps n (some app_id)).mp hb2 q hq (by simp [hqk]))
    simp [update_application, hget, hpre, hpn, hu]

/-- Witness for C9: each conjunct at a concrete store. -/
theorem name_uniqueness_invariant_witness :
    (KeysNodup (create_application
        { applications := [("a", recW)], rate_records := [], idem_records := [] }
        "tok" "k" "m" none 0 "b" "t").2.applications ∧
     NamesDistinct (create_application
        { applications := [("a", recW)], rate_records := [], idem_records := [] }
        "tok" "k" "m" none 0 "b" "t").2.applications) ∧
    (KeysNodup (update_application [("a", recW)] "a" "e" { name := some "m2" } false
        "immediate").2.1 ∧
     NamesDistinct (update_application [("a", recW)] "a" "e" { name := some "m2" } false
        "immediate").2.1) ∧
    (KeysNodup (activate_later [("a", recW)] "a") ∧
     NamesDistinct (activate_later [("a", recW)] "a")) ∧
    ((create_application
        { applications := [("a", recW)], rate_records := [], idem_records := [] }
        "tok" "k" " N " none 0 "b" "t").1 = .conflict) ∧
    ((update_application [("a", recW), ("b", recB)] "a" "e" { name := some " M " } false
        "immediate").1 = .conflict) :=
  ⟨name_uniqueness_invariant.1
     { applications := [("a", recW)], rate_records := [], idem_records := [] }
     "tok" "k" "m" none 0 "b" "t" (by decide) (by decide),
   name_uniqueness_invariant.2.1 [("a", recW)] "a" "e" { name := some "m2" } false
     "immediate" (by decide) (by decide),
   name_uniqueness_invariant.2.2.1 [("a", recW)] "a" (by decide) (by decide),
   name_uniqueness_invariant.2.2.2.1
     { applications := [("a", recW)], rate_records := [], idem_records := [] }
     "tok" "k" " N " none 0 "b" "t" ("a", recW) (by decide) (by decide) (by decide)
     (by decide),
   name_uniqueness_invariant.2.2.2.2 [("a", recW), ("b", recB)] "a" "e"
     { name := some " M " } false "immediate" recW " M " ("b", recB) (by decide) (by decide)
     rfl (by decide) (by decide) (by decide)⟩

end MockApi
